import Mathlib

/-!
Verification of the query-classification / price-extraction / response-assembly
core of the Local RAG Chatbot repository.

Python strings are modelled as `List Char` (`Str`).  The repository's compiled
regular expressions are modelled by a small continuation-passing backtracking
matcher whose combinators mirror Python `re` semantics: alternatives are tried
left to right, greedy quantifiers consume as much as possible first, lazy
quantifiers as little as possible first, and the first overall success (in
backtracking order) is the match Python returns.  Every pattern of the source
is transcribed combinator-by-combinator from its regex text.
-/

set_option maxRecDepth 10000

abbrev Str := List Char

/-- Python `\s` (ASCII whitespace, as used by `re` on these inputs). -/
def isWsPy (c : Char) : Bool :=
  c = ' ' || c = '\t' || c = '\n' || c = '\r' || c = Char.ofNat 11 || c = Char.ofNat 12

/-- Python regex `.` (any character except a newline). -/
def isDotPy (c : Char) : Bool := c ≠ '\n'

/-- Python `str.lower` (ASCII). -/
def toLowerStr (s : Str) : Str := s.map Char.toLower

/-- Python `str.strip()`: remove leading and trailing whitespace. -/
def stripWs (s : Str) : Str :=
  ((s.dropWhile isWsPy).reverse.dropWhile isWsPy).reverse

/-- Python `str.isdigit()` for ASCII strings: non-empty and all digits. -/
def strIsDigit (s : Str) : Bool := !s.isEmpty && s.all Char.isDigit

/-- Python `pat in s` (substring containment). -/
def inStr (pat : Str) : Str → Bool
  | [] => pat.isEmpty
  | c :: t => pat.isPrefixOf (c :: t) || inStr pat t

/-- Helper for splitting: prepend a char to the first piece. -/
def consHead (c : Char) : List Str → List Str
  | [] => [[c]]
  | h :: t => (c :: h) :: t

/-- Python `str.split(sep)` for a one-character separator (keeps empty pieces). -/
def splitOnChar (sep : Char) : Str → List Str
  | [] => [[]]
  | c :: t => if c = sep then [] :: splitOnChar sep t else consHead c (splitOnChar sep t)

/-- Python `str.split()` with no argument: split on whitespace runs, dropping
empty pieces. -/
def splitWs (s : Str) : List Str :=
  (s.foldr (fun c r => if isWsPy c then [] :: r else consHead c r) [[]]).filter
    (fun w => !w.isEmpty)

/-- Python dict insertion `d[k] = v`: replace in place if the key exists
(keeping its position), else append. -/
def dictInsert (k v : Str) : List (Str × Str) → List (Str × Str)
  | [] => [(k, v)]
  | (k', v') :: rest => if k' = k then (k, v) :: rest else (k', v') :: dictInsert k v rest

/-- Python `d.update(other)`: insert every entry of `other` in order. -/
def dictUpdate (d other : List (Str × Str)) : List (Str × Str) :=
  other.foldl (fun acc p => dictInsert p.1 p.2 acc) d

/-- Python `k in d`. -/
def dictContains (k : Str) (d : List (Str × Str)) : Bool := d.any (fun p => p.1 = k)

/-- A value stored in a document's metadata mapping. -/
inductive MetaVal : Type
  | vb : Bool → MetaVal
  | vs : Str → MetaVal
  | vd : List (Str × Str) → MetaVal
deriving DecidableEq

/-- A retrieved document: `page_content` plus a `metadata` mapping
(well-formed inputs in the sense of the spec's data model). -/
structure Document : Type where
  page_content : Str
  metadata : List (Str × MetaVal)
deriving DecidableEq

/-- Python `metadata.get(k)` (None when absent, modelled as `none`). -/
def metaGet (m : List (Str × MetaVal)) (k : Str) : Option MetaVal :=
  (m.find? (fun p => p.1 = k)).map (fun p => p.2)

/-- Python `k in metadata`. -/
def metaContains (m : List (Str × MetaVal)) (k : Str) : Bool := m.any (fun p => p.1 = k)

/-- Python truthiness of a metadata value (None, False, empty string and
empty dict are falsy). -/
def metaTruthy : Option MetaVal → Bool
  | none => false
  | some (MetaVal.vb b) => b
  | some (MetaVal.vs s) => !s.isEmpty
  | some (MetaVal.vd d) => !d.isEmpty

/-- Python `str.title()`-free helper: string value lookup with a default, for
metadata fields that hold strings. -/
def metaGetStr (m : List (Str × MetaVal)) (k : Str) (dflt : Str) : Str :=
  match metaGet m k with
  | some (MetaVal.vs s) => s
  | _ => dflt

/-! ## The regex matcher

`Option α`-valued continuation-passing matchers; `<|>` encodes Python's
backtracking priority (first success wins). -/

/-- Match a literal (case-sensitive). -/
def mLit {α : Type} (lit : Str) (s : Str) (k : Str → Option α) : Option α :=
  if s.take lit.length = lit then k (s.drop lit.length) else none

/-- Match a literal case-insensitively (`re.IGNORECASE`); `lit` is given in
lowercase. -/
def mLitCI {α : Type} (lit : Str) (s : Str) (k : Str → Option α) : Option α :=
  if toLowerStr (s.take lit.length) = lit then k (s.drop lit.length) else none

/-- Alternation of case-sensitive literals, tried left to right. -/
def mAltLits {α : Type} : List Str → Str → (Str → Option α) → Option α
  | [], _, _ => none
  | lit :: rest, s, k => mLit lit s k <|> mAltLits rest s k

/-- Alternation of case-insensitive literals, tried left to right. -/
def mAltsCI {α : Type} : List Str → Str → (Str → Option α) → Option α
  | [], _, _ => none
  | lit :: rest, s, k => mLitCI lit s k <|> mAltsCI rest s k

/-- Greedy `p*` over a character class: longest consumption first. -/
def mStarG {α : Type} (p : Char → Bool) : Str → (Str → Option α) → Option α
  | [], k => k []
  | c :: t, k => if p c then (mStarG p t k <|> k (c :: t)) else k (c :: t)

/-- Lazy `p*?` over a character class: shortest consumption first. -/
def mStarLazy {α : Type} (p : Char → Bool) : Str → (Str → Option α) → Option α
  | [], k => k []
  | c :: t, k => k (c :: t) <|> (if p c then mStarLazy p t k else none)

/-- Greedy `p+` over a character class. -/
def mPlusG {α : Type} (p : Char → Bool) (s : Str) (k : Str → Option α) : Option α :=
  match s with
  | [] => none
  | c :: t => if p c then mStarG p t k else none

/-- Greedy `p*` capturing what it consumed (continuation gets remainder and
capture). -/
def mStarGCap {α : Type} (p : Char → Bool) : Str → Str → (Str → Str → Option α) → Option α
  | acc, [], k => k [] acc
  | acc, c :: t, k =>
    if p c then (mStarGCap p (acc ++ [c]) t k <|> k (c :: t) acc) else k (c :: t) acc

/-- Greedy `(p+)` capture group. -/
def mPlusGCap {α : Type} (p : Char → Bool) (s : Str) (k : Str → Str → Option α) : Option α :=
  match s with
  | [] => none
  | c :: t => if p c then mStarGCap p [c] t k else none

/-- Lazy `(p+?)` capture group: shortest capture first. -/
def mPlusLazyCap {α : Type} (p : Char → Bool) : Str → Str → (Str → Str → Option α) → Option α
  | _, [], _ => none
  | acc, c :: t, k =>
    if p c then (k t (acc ++ [c]) <|> mPlusLazyCap p (acc ++ [c]) t k) else none

/-- Greedy `(...)?`: try the body first, then the empty alternative. -/
def mOpt {α : Type} (m : Str → (Str → Option α) → Option α) (s : Str)
    (k : Str → Option α) : Option α :=
  m s k <|> k s

/-- Python `$` (without MULTILINE): end of string, or just before a final
newline. -/
def mDollar {α : Type} (s : Str) (k : Str → Option α) : Option α :=
  if s = [] ∨ s = ['\n'] then k s else none

/-- `re.search`: try the anchored matcher at every position, leftmost first
(including the position at the very end). -/
def searchFrom {α : Type} (m : Str → Option α) : Str → Option α
  | [] => m []
  | c :: t => m (c :: t) <|> searchFrom m t

/-- One step list for `re.findall`: the anchored matcher yields a capture and
the remaining suffix; scanning resumes after the match (advancing by one
position on a zero-width match, as Python does).  `fuel` only bounds the
recursion; `length + 1` is always enough. -/
def findallAux {α : Type} (m : Str → Option (α × Str)) : Nat → Str → List α
  | 0, _ => []
  | _ + 1, [] =>
    match m [] with
    | some (a, _) => [a]
    | none => []
  | fuel + 1, c :: t =>
    match m (c :: t) with
    | some (a, rest) =>
      if rest.length = (c :: t).length then a :: findallAux m fuel t
      else a :: findallAux m fuel rest
    | none => findallAux m fuel t

/-- Python `pattern.findall(s)`. -/
def findall {α : Type} (m : Str → Option (α × Str)) (s : Str) : List α :=
  findallAux m (s.length + 1) s

namespace pattern_matching

/-- PRICE_KEYWORDS of pattern_matching.py. -/
def PRICE_KEYWORDS : List Str :=
  [ ("price".data), ("cost".data), ("fee".data), ("charge".data), ("payment".data),
    ("pay".data), ("expense".data), ("bill".data), ("pricing".data), ("costs".data),
    ("fees".data), ("expensive".data), ("cheap".data), ("affordable".data),
    ("how much".data), ("how many".data), ("bdt".data), ("taka".data), ("tk".data) ]

/-- `is_price_query`: the lowercased query contains one of the keywords. -/
def is_price_query (query : Str) : Bool :=
  PRICE_KEYWORDS.any (fun kw => inStr kw (toLowerStr query))

/-- The currency suffix alternation `(?:BDT|Tk\.?|Taka)` of BDT_QUERY_PATTERN
(case-insensitive, alternatives in source order, optional dot after `Tk`). -/
def bdt_suffix {α : Type} (s : Str) (k : Str → Option α) : Option α :=
  mLitCI ("bdt".data) s k <|>
    (mLitCI ("tk".data) s (fun s1 => mOpt (mLit (".".data)) s1 k)) <|>
    mLitCI ("taka".data) s k

/-- `BDT_QUERY_PATTERN.match`: the pattern
`^\s*(.+?)\s*(?:BDT|Tk\.?|Taka)\s*$` with `re.I`; returns group 1. -/
def bdt_query_match (q : Str) : Option Str :=
  mStarG isWsPy q (fun s1 =>
    mPlusLazyCap isDotPy [] s1 (fun s2 g =>
      mStarG isWsPy s2 (fun s3 =>
        bdt_suffix s3 (fun s4 =>
          mStarG isWsPy s4 (fun s5 =>
            mDollar s5 (fun _ => some g))))))

/-- Anchored matcher for pattern `how\s+much\s+(?:does|is|for|will|would|should)?`
(first `how_much_patterns` entry of `is_direct_price_query`). -/
def hm_detect1_at (s : Str) : Option Unit :=
  mLit ("how".data) s (fun a =>
    mPlusG isWsPy a (fun b =>
      mLit ("much".data) b (fun c =>
        mPlusG isWsPy c (fun d =>
          mOpt (mAltLits [ ("does".data), ("is".data), ("for".data), ("will".data),
            ("would".data), ("should".data) ]) d (fun _ => some ())))))

/-- Anchored matcher for `what\s+(?:is|are)\s+the\s+(?:price|cost|fee|charge)`. -/
def hm_detect2_at (s : Str) : Option Unit :=
  mLit ("what".data) s (fun a =>
    mPlusG isWsPy a (fun b =>
      mAltLits [ ("is".data), ("are".data) ] b (fun c =>
        mPlusG isWsPy c (fun d =>
          mLit ("the".data) d (fun e =>
            mPlusG isWsPy e (fun f =>
              mAltLits [ ("price".data), ("cost".data), ("fee".data), ("charge".data) ]
                f (fun _ => some ())))))))

/-- Anchored matcher for `(?:price|cost|fee|charge)\s+(?:of|for)`. -/
def hm_detect3_at (s : Str) : Option Unit :=
  mAltLits [ ("price".data), ("cost".data), ("fee".data), ("charge".data) ] s (fun a =>
    mPlusG isWsPy a (fun b =>
      mAltLits [ ("of".data), ("for".data) ] b (fun _ => some ())))

/-- Anchored matcher for `how\s+(?:expensive|costly)`. -/
def hm_detect4_at (s : Str) : Option Unit :=
  mLit ("how".data) s (fun a =>
    mPlusG isWsPy a (fun b =>
      mAltLits [ ("expensive".data), ("costly".data) ] b (fun _ => some ())))

/-- `is_direct_price_query` of pattern_matching.py: empty text is not a query;
the BDT pattern is tried first, then each how-much pattern is searched in the
lowercased text, in source order. -/
def is_direct_price_query (text : Str) : Bool :=
  if text.isEmpty then false
  else if (bdt_query_match text).isSome then true
  else
    let tl := toLowerStr text
    (searchFrom hm_detect1_at tl).isSome || (searchFrom hm_detect2_at tl).isSome ||
      (searchFrom hm_detect3_at tl).isSome || (searchFrom hm_detect4_at tl).isSome

/-- The trailing alternation `(?:\?|$|in\s+(?:bdt|taka|tk))` of the extraction
patterns. -/
def hm_tail_end {α : Type} (s : Str) (k : Str → Option α) : Option α :=
  mLit ("?".data) s k <|> mDollar s k <|>
    (mLit ("in".data) s (fun a =>
      mPlusG isWsPy a (fun b =>
        mAltLits [ ("bdt".data), ("taka".data), ("tk".data) ] b k)))

/-- The optional `(?:\s+cost|\s+price|\s+charge|\s+fee)?` of extraction
pattern 1. -/
def hm_tail_unit {α : Type} (s : Str) (k : Str → Option α) : Option α :=
  mOpt (fun s' k' =>
    (mPlusG isWsPy s' (fun a => mLit ("cost".data) a k')) <|>
    (mPlusG isWsPy s' (fun a => mLit ("price".data) a k')) <|>
    (mPlusG isWsPy s' (fun a => mLit ("charge".data) a k')) <|>
    (mPlusG isWsPy s' (fun a => mLit ("fee".data) a k'))) s k

/-- The optional article `(?:a|an|the)?`. -/
def hm_article {α : Type} (s : Str) (k : Str → Option α) : Option α :=
  mOpt (mAltLits [ ("a".data), ("an".data), ("the".data) ]) s k

/-- Anchored matcher (returning group 1) for extraction pattern 1:
`how\s+much\s+(?:does|is|for|will|would|should)?\s+(?:a|an|the)?\s*(.+?)`
`(?:\s+cost|\s+price|\s+charge|\s+fee)?(?:\?|$|in\s+(?:bdt|taka|tk))`. -/
def hm_extract1_at (s : Str) : Option Str :=
  mLit ("how".data) s (fun a =>
    mPlusG isWsPy a (fun b =>
      mLit ("much".data) b (fun c =>
        mPlusG isWsPy c (fun d =>
          mOpt (mAltLits [ ("does".data), ("is".data), ("for".data), ("will".data),
            ("would".data), ("should".data) ]) d (fun e =>
            mPlusG isWsPy e (fun f =>
              hm_article f (fun g1 =>
                mStarG isWsPy g1 (fun h =>
                  mPlusLazyCap isDotPy [] h (fun i cap =>
                    hm_tail_unit i (fun j =>
                      hm_tail_end j (fun _ => some cap)))))))))))

/-- Anchored matcher for extraction pattern 2:
`what\s+(?:is|are)\s+the\s+(?:price|cost|fee|charge)(?:\s+of|\s+for)?\s+`
`(?:a|an|the)?\s*(.+?)(?:\?|$|in\s+(?:bdt|taka|tk))`. -/
def hm_extract2_at (s : Str) : Option Str :=
  mLit ("what".data) s (fun a =>
    mPlusG isWsPy a (fun b =>
      mAltLits [ ("is".data), ("are".data) ] b (fun c =>
        mPlusG isWsPy c (fun d =>
          mLit ("the".data) d (fun e =>
            mPlusG isWsPy e (fun f =>
              mAltLits [ ("price".data), ("cost".data), ("fee".data), ("charge".data) ]
                f (fun g =>
                  mOpt (fun s' k' =>
                    (mPlusG isWsPy s' (fun x => mLit ("of".data) x k')) <|>
                    (mPlusG isWsPy s' (fun x => mLit ("for".data) x k'))) g (fun h =>
                    mPlusG isWsPy h (fun i =>
                      hm_article i (fun j =>
                        mStarG isWsPy j (fun l =>
                          mPlusLazyCap isDotPy [] l (fun m cap =>
                            hm_tail_end m (fun _ => some cap)))))))))))))

/-- Anchored matcher for extraction pattern 3:
`(?:price|cost|fee|charge)\s+(?:of|for)\s+(?:a|an|the)?\s*(.+?)`
`(?:\?|$|in\s+(?:bdt|taka|tk))`. -/
def hm_extract3_at (s : Str) : Option Str :=
  mAltLits [ ("price".data), ("cost".data), ("fee".data), ("charge".data) ] s (fun a =>
    mPlusG isWsPy a (fun b =>
      mAltLits [ ("of".data), ("for".data) ] b (fun c =>
        mPlusG isWsPy c (fun d =>
          hm_article d (fun e =>
            mStarG isWsPy e (fun f =>
              mPlusLazyCap isDotPy [] f (fun g cap =>
                hm_tail_end g (fun _ => some cap))))))))

/-- `extract_treatment_from_query` of pattern_matching.py: BDT form first
(group 1 stripped), then the three how-much patterns searched on the
lowercased query in order. -/
def extract_treatment_from_query (query : Str) : Option Str :=
  match bdt_query_match query with
  | some g => some (stripWs g)
  | none =>
    let ql := toLowerStr query
    match searchFrom hm_extract1_at ql with
    | some cap => some (stripWs cap)
    | none =>
      match searchFrom hm_extract2_at ql with
      | some cap => some (stripWs cap)
      | none => (searchFrom hm_extract3_at ql).map stripWs

/-- Replace every run of whitespace by a single space
(`re.sub(r'\s+', ' ', s)`); the Bool argument records whether the previous
character was whitespace. -/
def collapseWsAux : Bool → Str → Str
  | _, [] => []
  | prevWs, c :: t =>
    if isWsPy c then
      (if prevWs then collapseWsAux true t else ' ' :: collapseWsAux true t)
    else c :: collapseWsAux false t

/-- `normalize_treatment_name` of pattern_matching.py: lowercase, drop every
character that is not `\w` or `\s`, collapse whitespace runs, strip. -/
def normalize_treatment_name (treatment : Str) : Str :=
  stripWs (collapseWsAux false
    ((toLowerStr treatment).filter (fun c => c.isAlphanum || c = '_' || isWsPy c)))

/-- `treatments_match` of pattern_matching.py: exact match after
normalization, then substring containment, then word-set overlap of at least
0.7 measured against the smaller set (`len(inter)/smaller >= 0.7`, modelled
as `7 * smaller ≤ 10 * inter`). -/
def treatments_match (treatment1 treatment2 : Str) : Bool :=
  let norm1 := normalize_treatment_name treatment1
  let norm2 := normalize_treatment_name treatment2
  if norm1 = norm2 then true
  else if inStr norm1 norm2 || inStr norm2 norm1 then true
  else
    let words1 := (splitWs norm1).dedup
    let words2 := (splitWs norm2).dedup
    if words1.isEmpty || words2.isEmpty then false
    else
      let inter := (words1.filter (fun w => words2.contains w)).length
      let smaller := min words1.length words2.length
      if smaller = 0 then false
      else decide (7 * smaller ≤ 10 * inter)

/-- Anchored matcher for `TREATMENT_PRICE_PATTERN`
`([a-zA-Z\s]+)\s*(?:cost|price)[^\d]*?(\d+)` with `re.IGNORECASE`; yields the
two captures and the remaining suffix. -/
def treatment_price_matchOnce (s : Str) : Option ((Str × Str) × Str) :=
  mPlusGCap (fun c => c.isAlpha || isWsPy c) s (fun s1 g1 =>
    mStarG isWsPy s1 (fun s2 =>
      mAltsCI [ ("cost".data), ("price".data) ] s2 (fun s3 =>
        mStarLazy (fun c => !c.isDigit) s3 (fun s4 =>
          mPlusGCap Char.isDigit s4 (fun s5 g2 => some ((g1, g2), s5))))))

/-- Anchored matcher for `PRICE_PATTERN` `(?:cost|price)[^\d]*?(\d+)` with
`re.IGNORECASE`; yields the single capture and the remaining suffix. -/
def price_pat_matchOnce (s : Str) : Option (Str × Str) :=
  mAltsCI [ ("cost".data), ("price".data) ] s (fun s1 =>
    mStarLazy (fun c => !c.isDigit) s1 (fun s2 =>
      mPlusGCap Char.isDigit s2 (fun s3 g => some (g, s3))))

/-- Anchored matcher for `GENERAL_PRICE_PATTERN`
`(?:cost|price|charge)[^\d]*(\d+)` with `re.IGNORECASE`. -/
def general_price_matchOnce (s : Str) : Option (Str × Str) :=
  mAltsCI [ ("cost".data), ("price".data), ("charge".data) ] s (fun s1 =>
    mStarG (fun c => !c.isDigit) s1 (fun s2 =>
      mPlusGCap Char.isDigit s2 (fun s3 g => some (g, s3))))

/-- The `\s*(?:BDT|Tk\.?)` tail of `PRICE_FORMAT_PATTERN` (no IGNORECASE):
the literal after `\s*` starts with a non-space, so `\s*` consumes exactly
the whitespace run. -/
def price_format_tail (r : Str) : Bool :=
  let r' := r.dropWhile isWsPy
  ("BDT".data).isPrefixOf r' || ("Tk".data).isPrefixOf r'

/-- Whether `PRICE_FORMAT_PATTERN` `(\d+)(?:\.00)?\s*(?:BDT|Tk\.?)` matches at
this position.  `\d+` must take the whole digit run (a shorter prefix is
followed by a digit, which fits none of `\.`, `\s`, `B`, `T`). -/
def price_format_at (l : Str) : Bool :=
  let ds := l.takeWhile Char.isDigit
  !ds.isEmpty &&
    (price_format_tail (l.drop ds.length) ||
      ((".00".data).isPrefixOf (l.drop ds.length) &&
        price_format_tail (l.drop (ds.length + 3))))

/-- `PRICE_FORMAT_PATTERN.search` as a Boolean. -/
def price_format_search : Str → Bool
  | [] => false
  | c :: t => price_format_at (c :: t) || price_format_search t

/-- Anchored `PRICE_FORMAT_PATTERN` match for `re.sub`: returns group 1 and
the remaining suffix, with greedy `(?:\.00)?` and `\s*`. -/
def price_format_matchOnce (s : Str) : Option (Str × Str) :=
  mPlusGCap Char.isDigit s (fun s1 g =>
    mOpt (mLit (".00".data)) s1 (fun s2 =>
      mStarG isWsPy s2 (fun s3 =>
        (mLit ("BDT".data) s3 (fun s4 => some (g, s4))) <|>
          (mLit ("Tk".data) s3 (fun s4 =>
            mOpt (mLit (".".data)) s4 (fun s5 => some (g, s5)))))))

/-- The zero-width lookahead `(?=\d+\.00 BDT)` of
`SPACE_BEFORE_PRICE_PATTERN`: a non-empty digit run followed by `.00 BDT`
(`\d+` must take the whole run, since `\.` cannot match a digit). -/
def space_before_price_ahead (l : Str) : Bool :=
  let ds := l.takeWhile Char.isDigit
  !ds.isEmpty && (".00 BDT".data).isPrefixOf (l.drop ds.length)

/-- `SPACE_BEFORE_PRICE_PATTERN.sub(' ', s)` for `(?<=\S)(?=\d+\.00 BDT)`:
insert a space at every position whose previous character is non-whitespace
and whose lookahead matches (Python resumes scanning one character after a
zero-width match, i.e. every position is tested). -/
def space_before_price_aux : Option Char → Str → Str
  | _, [] => []
  | prev, c :: t =>
    (if (match prev with | some p => !isWsPy p | none => false) &&
        space_before_price_ahead (c :: t)
     then [' ', c] else [c]) ++ space_before_price_aux (some c) t

/-- The full `SPACE_BEFORE_PRICE_PATTERN` substitution pass. -/
def space_before_price_sub (s : Str) : Str := space_before_price_aux none s

end pattern_matching

namespace document_utils

/-- The filter of `format_retrieved_context`: content mentions a price/cost/
currency keyword (on the lowercased content) or contains a digit
(`re.search(r'\d+(?:\.\d+)?', content)` succeeds iff some digit occurs). -/
def contentHasPrice (doc : Document) : Bool :=
  (([ ("price".data), ("cost".data), ("bdt".data), ("taka".data), ("tk".data) ] :
      List Str).any (fun kw => inStr kw (toLowerStr doc.page_content))) ||
    doc.page_content.any Char.isDigit

/-- The `(Source: ..., Type: ...)` metadata suffix of a formatted document
(empty when the metadata mapping is empty). -/
def metadataSuffix (doc : Document) : Str :=
  if doc.metadata.isEmpty then []
  else
    let source := metaGetStr doc.metadata ("source".data) ("Unknown".data)
    let dt := metaGetStr doc.metadata ("document_type".data) []
    (" (Source: ".data) ++ source ++
      (if !dt.isEmpty then (", Type: ".data) ++ dt else []) ++ (")".data)

/-- Per-document body: stripped content, truncated to 500 characters with an
explicit marker when longer. -/
def truncContent (doc : Document) : Str :=
  let content := stripWs doc.page_content
  if 500 < content.length then content.take 500 ++ ("... [content truncated]".data)
  else content

/-- One `[PRICE INFO i]` part (`i` is the 1-based index rendered in
decimal). -/
def priceDocPart (i : Nat) (doc : Document) : Str :=
  ("[PRICE INFO ".data) ++ Nat.toDigits 10 (i + 1) ++ ("]".data) ++
    metadataSuffix doc ++ (": ".data) ++ truncContent doc

/-- One `[Section i]` part. -/
def sectionPart (i : Nat) (doc : Document) : Str :=
  ("[Section ".data) ++ Nat.toDigits 10 (i + 1) ++ ("]".data) ++
    metadataSuffix doc ++ (": ".data) ++ truncContent doc

/-- The truncation marker appended by the final 4000-character check. -/
def contextTruncMarker : Str := ("... [additional context truncated]".data)

/-- The joined context (header, capped price docs, capped other docs) before
the final 4000-character check. -/
def assembleParts (docs : List Document) (doc_type : Option Str) : Str :=
  let headerParts : List Str :=
    match doc_type with
    | some dt => if !dt.isEmpty then [("--- ".data) ++ dt ++ (" ---".data)] else []
    | none => []
  let price_docs := (docs.filter contentHasPrice).take 3
  let other_docs := (docs.filter (fun d => !contentHasPrice d)).take 2
  let parts := headerParts ++ price_docs.enum.map (fun p => priceDocPart p.1 p.2) ++
    other_docs.enum.map (fun p => sectionPart p.1 p.2)
  List.intercalate ("\n\n".data) parts

/-- `format_retrieved_context` of document_utils.py: optional doc-type
header, at most 3 price-bearing documents (original order) then at most 2
others, each with metadata suffix and 500-character content cap, joined by
blank lines; finally hard-truncated at 4000 characters with an explicit
marker. -/
def format_retrieved_context (docs : List Document) (doc_type : Option Str) : Str :=
  if docs.isEmpty then []
  else
    let result := assembleParts docs doc_type
    if 4000 < result.length then result.take 4000 ++ contextTruncMarker else result

/-- The explicit loop of `filter_documents_by_score` for non-price queries:
keep documents whose score is strictly below the threshold, in order. -/
def fdsLoop : List (Document × ℚ) → ℚ → List Document
  | [], _ => []
  | (doc, score) :: rest, threshold =>
    if score < threshold then doc :: fdsLoop rest threshold else fdsLoop rest threshold

/-- `filter_documents_by_score` of document_utils.py: price queries return
every document; otherwise the strict threshold filter is applied. -/
def filter_documents_by_score (docs_with_scores : List (Document × ℚ))
    (threshold : ℚ) (is_price_query : Bool) : List Document :=
  if is_price_query then docs_with_scores.map Prod.fst
  else fdsLoop docs_with_scores threshold

/-- The word stoplist of the line-level heuristic. -/
def lineStop : List Str :=
  [ ("price".data), ("cost".data), ("bdt".data), ("taka".data), ("charge".data),
    ("treatment".data), ("service".data), ("procedure".data) ]

/-- The word stoplist of the whole-content fallback. -/
def fallbackStop : List Str :=
  [ ("price".data), ("cost".data), ("bdt".data), ("taka".data), ("charge".data) ]

/-- The per-line heuristic of `extract_price_info`: on a lowercased stripped
line containing one of the found prices, join the remaining long words as the
treatment and pair it with the line's first `PRICE_PATTERN` capture. -/
def lineStep (price_matches : List Str) (price_info : List (Str × Str))
    (rawLine : Str) : List (Str × Str) :=
  let line := toLowerStr (stripWs rawLine)
  if price_matches.any (fun p => inStr p line) then
    let words := (splitWs line).filter
      (fun w => 3 < w.length && !strIsDigit w && !lineStop.contains w)
    if !words.isEmpty then
      let treatment := List.intercalate [' '] words
      match searchFrom pattern_matching.price_pat_matchOnce line with
      | some (g, _) => dictInsert treatment g price_info
      | none => price_info
    else price_info
  else price_info

/-- The whole-content fallback of `extract_price_info`: first long
non-stoplisted word of the lowercased content, added only when not already a
key. -/
def generalStep (content : Str) (price_info : List (Str × Str)) : List (Str × Str) :=
  match searchFrom pattern_matching.general_price_matchOnce content with
  | some (g, _) =>
    let price := stripWs g
    match (splitWs (toLowerStr content)).find?
        (fun w => 3 < w.length && !fallbackStop.contains w) with
    | some w => if dictContains w price_info then price_info else dictInsert w price price_info
    | none => price_info
  | none => price_info

/-- Processing of one document by `extract_price_info`: structured metadata
short-circuits (`continue`); otherwise the named-pair pattern, and failing
that the line heuristic followed by the fallback search. -/
def docStep (price_info : List (Str × Str)) (doc : Document) : List (Str × Str) :=
  if !doc.metadata.isEmpty && metaContains doc.metadata ("has_price_info".data) &&
      metaTruthy (metaGet doc.metadata ("has_price_info".data)) &&
      metaContains doc.metadata ("price_data".data) then
    match metaGet doc.metadata ("price_data".data) with
    | some (MetaVal.vd d) => dictUpdate price_info d
    | _ => price_info
  else
    let content := doc.page_content
    let pairMatches := findall pattern_matching.treatment_price_matchOnce content
    if !pairMatches.isEmpty then
      pairMatches.foldl (fun acc m =>
        let treatment := toLowerStr (stripWs m.1)
        let price := stripWs m.2
        if !treatment.isEmpty && !strIsDigit treatment && 2 < treatment.length then
          dictInsert treatment price acc
        else acc) price_info
    else
      let price_matches := findall pattern_matching.price_pat_matchOnce content
      let pi1 :=
        if !price_matches.isEmpty then
          (splitOnChar '\n' content).foldl (lineStep price_matches) price_info
        else price_info
      generalStep content pi1

/-- `extract_price_info` of document_utils.py. -/
def extract_price_info (docs : List Document) : List (Str × Str) :=
  docs.foldl docStep []

end document_utils

namespace text_processing

/-- Sentence terminators of `SENTENCE_PATTERN` `(?<=[.!?])\s+`. -/
def isTerm (c : Char) : Bool := c = '.' || c = '!' || c = '?'

/-- Whether an optional previous character is a sentence terminator. -/
def isTermOpt : Option Char → Bool
  | some c => isTerm c
  | none => false

/-- `SENTENCE_PATTERN.split`: split at every maximal whitespace run whose
preceding character is a terminator.  `acc` holds the current piece reversed,
`inDelim` records that the scanner is inside a delimiter run. -/
def sentenceSplitAux : Str → Bool → Option Char → Str → List Str
  | acc, _, _, [] => [acc.reverse]
  | acc, inDelim, prev, c :: t =>
    if isWsPy c && (inDelim || isTermOpt prev) then
      if inDelim then sentenceSplitAux acc true (some c) t
      else acc.reverse :: sentenceSplitAux [] true (some c) t
    else sentenceSplitAux (c :: acc) false (some c) t

/-- `SENTENCE_PATTERN.split(text)`. -/
def sentenceSplit (text : Str) : List Str := sentenceSplitAux [] false none text

/-- Whether a string ends with `.`, `!` or `?` (Python
`endswith(('.', '!', '?'))`; an empty string does not). -/
def endsWithTerm (s : Str) : Bool :=
  match s.reverse with
  | c :: _ => isTerm c
  | [] => false

/-- `ensure_sentence_limit` of text_processing.py: split the stripped text on
sentence boundaries; return the text unchanged when within the limit, else
join the first `max_sentences` pieces with `". "` and append a period when
the result does not end in a terminator. -/
def ensure_sentence_limit (text : Str) (max_sentences : Nat) : Str :=
  let sentences := sentenceSplit (stripWs text)
  if sentences.length ≤ max_sentences then text
  else
    let limited_text := List.intercalate (". ".data) (sentences.take max_sentences)
    if !endsWithTerm limited_text then limited_text ++ [ '.' ]
    else limited_text

/-- The tuple unpacking `treatment, price = match` performed by
`extract_price_info` on each `PRICE_PATTERN.findall` result.  The pattern
imported from pattern_matching.py has a single capture group, so each result
is one string; unpacking it into two variables succeeds only when it has
exactly two characters and raises `ValueError` otherwise. -/
def unpack2 (m : Str) : Except Str (Str × Str) :=
  match m with
  | [a, b] => Except.ok ([a], [b])
  | _ => Except.error ("ValueError".data)

/-- The inner `for treatment, price in price_matches` loop of
`extract_price_info`, propagating the unpacking failure. -/
def unpackLoop (price_data : List (Str × Str)) :
    List Str → Except Str (List (Str × Str))
  | [] => Except.ok price_data
  | m :: rest =>
    match unpack2 m with
    | Except.error e => Except.error e
    | Except.ok (t, p) =>
      let t' := stripWs t
      let pd' :=
        if !t'.isEmpty && !strIsDigit t' then dictInsert (toLowerStr t') p price_data
        else price_data
      unpackLoop pd' rest

/-- Processing of one document by text_processing.py's `extract_price_info`:
metadata price data is merged (without a `continue`), then the content is
scanned with the single-group `PRICE_PATTERN` and each match is unpacked. -/
def tpDocStep (price_data : List (Str × Str)) (doc : Document) :
    Except Str (List (Str × Str)) :=
  let pd1 :=
    if metaTruthy (metaGet doc.metadata ("has_price_info".data)) &&
        metaContains doc.metadata ("price_data".data) then
      match metaGet doc.metadata ("price_data".data) with
      | some (MetaVal.vd d) => dictUpdate price_data d
      | _ => price_data
    else price_data
  unpackLoop pd1 (findall pattern_matching.price_pat_matchOnce doc.page_content)

/-- Helper loop of `extract_price_info` over the documents. -/
def tpGo (price_data : List (Str × Str)) :
    List Document → Except Str (List (Str × Str))
  | [] => Except.ok price_data
  | d :: rest =>
    match tpDocStep price_data d with
    | Except.error e => Except.error e
    | Except.ok pd' => tpGo pd' rest

/-- `extract_price_info` of text_processing.py, with the `ValueError` that
its tuple unpacking can raise modelled as `Except.error`. -/
def extract_price_info (docs : List Document) : Except Str (List (Str × Str)) :=
  tpGo [] docs

end text_processing

namespace response_formatter

/-- The apostrophe character (used inside the fixed phrases). -/
def apos : Char := Char.ofNat 39

/-- Greeting phrase 1 of `RESPONSE_VARIATIONS["greeting"]`. -/
def greeting1 : Str :=
  ("Hello! I".data) ++ [apos] ++
    ("m Local RAG Chatbot, your healthcare assistant. How can I help you today?".data)

/-- Greeting phrase 2. -/
def greeting2 : Str :=
  ("Hi there! I".data) ++ [apos] ++
    ("m Local RAG Chatbot, ready to assist with your healthcare questions. What can I help you with?".data)

/-- Greeting phrase 3. -/
def greeting3 : Str :=
  ("Welcome! I".data) ++ [apos] ++
    ("m Local RAG Chatbot, your medical information assistant. How may I assist you today?".data)

/-- Greeting phrase 4. -/
def greeting4 : Str :=
  ("Greetings! I".data) ++ [apos] ++
    ("m Local RAG Chatbot, here to help with your healthcare inquiries. What would you like to know?".data)

/-- `RESPONSE_VARIATIONS["greeting"]`. -/
def greetingVariations : List Str := [greeting1, greeting2, greeting3, greeting4]

/-- The fixed apology returned by `format_response` for empty input. -/
def apologyText : Str :=
  ("I apologize, but I couldn".data) ++ [apos] ++
    ("t find any relevant information for your query.".data)

/-- The sentence cap inside `format_response`: split on `'.'`, and when over
the limit rejoin the first `max_sentences` pieces with `". "` plus a final
period. -/
def periodLimit (text : Str) (max_sentences : Nat) : Str :=
  let sentences := splitOnChar '.' text
  if max_sentences < sentences.length then
    List.intercalate (". ".data) (sentences.take max_sentences) ++ [ '.' ]
  else text

/-- `format_response` of response_formatter.py: empty input yields the fixed
apology; otherwise a greeting chosen by `random.choice` (modelled by the
index `choice`) is prepended with a space; `max_sentences` (falsy when absent
or zero) optionally caps the sentences. -/
def format_response (choice : Fin 4) (text : Str) (max_sentences : Option Nat) : Str :=
  if text.isEmpty then apologyText
  else
    let intro := greetingVariations.getD choice.val []
    let text' :=
      match max_sentences with
      | some m => if m ≠ 0 then periodLimit text m else text
      | none => text
    intro ++ [ ' ' ] ++ text'

/-- First index of an occurrence of `pat` in `s` (both already lowercased by
the caller), for `re.finditer(re.escape(treatment), response, IGNORECASE)`. -/
def substrFindIdx (pat : Str) : Str → Option Nat
  | [] => if pat.isEmpty then some 0 else none
  | c :: t =>
    if pat.isPrefixOf (c :: t) then some 0
    else (substrFindIdx pat t).map (fun n => n + 1)

/-- Python `response.endswith('.')`. -/
def endsWithChar (s : Str) : Bool :=
  match s.reverse with
  | c :: _ => c = '.'
  | [] => false

/-- `add_price_info` of response_formatter.py: leave the response alone when
it already holds `{price}.00 BDT`; else insert `" costs {price}.00 BDT"`
after the first (case-insensitive) mention of the treatment; else append a
trailing price sentence (directly for short responses, with sentence
punctuation otherwise). -/
def add_price_info (response treatment price : Str) : Str :=
  if inStr (price ++ (".00 BDT".data)) response then response
  else
    let price_str := price ++ (".00 BDT".data)
    match (if inStr (toLowerStr treatment) (toLowerStr response) then
        substrFindIdx (toLowerStr treatment) (toLowerStr response)
      else none) with
    | some idx =>
      let insert_pos := idx + treatment.length
      response.take insert_pos ++ (" costs ".data) ++ price_str ++
        response.drop insert_pos
    | none =>
      if response.length < 80 then
        response ++ (" The cost for ".data) ++ treatment ++ (" is ".data) ++
          price_str ++ [ '.' ]
      else if endsWithChar response then
        response ++ (" The cost for ".data) ++ treatment ++ (" is ".data) ++
          price_str ++ [ '.' ]
      else
        response ++ (". The cost for ".data) ++ treatment ++ (" is ".data) ++
          price_str ++ [ '.' ]

/-- Python `str.replace(pat, rep)`: every non-overlapping occurrence, left to
right (`fuel` only bounds the recursion; the length always suffices for a
non-empty `pat`). -/
def replaceAllAux (pat rep : Str) : Nat → Str → Str
  | 0, s => s
  | _ + 1, [] => []
  | fuel + 1, c :: t =>
    if pat.isPrefixOf (c :: t) && !pat.isEmpty then
      rep ++ replaceAllAux pat rep fuel ((c :: t).drop pat.length)
    else c :: replaceAllAux pat rep fuel t

/-- Python `s.replace(pat, rep)` for non-empty `pat`. -/
def replaceAll (pat rep s : Str) : Str := replaceAllAux pat rep s.length s

/-- `format_price_response` of response_formatter.py: with a non-empty price
map, blanket-replace `" BDT"` by `".00 BDT"`, run the space-insertion pass,
and when no `PRICE_FORMAT_PATTERN` token is present add the first price whose
treatment is mentioned in the response.  (The function's `try` block cannot
fail on these operations.) -/
def format_price_response (response : Str) (price_info : List (Str × Str)) : Str :=
  if price_info.isEmpty then response
  else
    let m1 := replaceAll (" BDT".data) (".00 BDT".data) response
    let m2 := pattern_matching.space_before_price_sub m1
    let has_price := pattern_matching.price_format_search m2
    if !has_price && !price_info.isEmpty then
      match price_info.find? (fun ip => inStr (toLowerStr ip.1) (toLowerStr m2)) with
      | some ip => add_price_info m2 ip.1 ip.2
      | none => m2
    else m2

end response_formatter

/-! ## Claim theorems -/

/-- The matching rule as worded by the spec (section 4.3): exact equality of
the normalized forms, substring containment either way, or else non-empty
word sets with overlap of at least 0.7 of the smaller set.  Stated separately
so that the implementation can be compared against the spec's wording. -/
def spec_match_rule (a b : Str) : Bool :=
  let na := pattern_matching.normalize_treatment_name a
  let nb := pattern_matching.normalize_treatment_name b
  decide (na = nb) || inStr na nb || inStr nb na ||
    (!(splitWs na).dedup.isEmpty && !(splitWs nb).dedup.isEmpty &&
      decide (7 * min (splitWs na).dedup.length (splitWs nb).dedup.length ≤
        10 * ((splitWs na).dedup.filter
          (fun w => (splitWs nb).dedup.contains w)).length))

/-- `List.intercalate` on a two-element list. -/
theorem intercalate_pair (sep a b : Str) :
    List.intercalate sep [a, b] = a ++ sep ++ b := by
  show a ++ (sep ++ (b ++ [])) = a ++ sep ++ b
  simp [List.append_assoc]

/-- The assembled context for one digit-bearing document and a non-empty
doc-type string (computed once with the doc type held symbolic, so that no
proof walks a 4000-character list). -/
theorem c1_assemble_eq (c : Char) (rest : Str) :
    document_utils.assembleParts [⟨("1".data), []⟩] (some (c :: rest)) =
      List.intercalate ("\n\n".data)
        [("--- ".data) ++ (c :: rest) ++ (" ---".data),
          ("[PRICE INFO 1]: 1".data)] := rfl

/-- C1 (counterexample): with a 4000-character doc-type header and one short
price-bearing document, the assembled context has 4027 characters, so the
returned string has length 4034 (4000 plus the appended 34-character
truncation marker) and exceeds the claimed 4000-character bound. -/
theorem claim_c1_counterexample :
    (document_utils.format_retrieved_context [⟨("1".data), []⟩]
      (some (List.replicate 4000 'A'))).length = 4034 ∧
    4000 < (document_utils.format_retrieved_context [⟨("1".data), []⟩]
      (some (List.replicate 4000 'A'))).length := by
  have hrepl : List.replicate 4000 'A' = 'A' :: List.replicate 3999 'A' := rfl
  have hr : document_utils.assembleParts [⟨("1".data), []⟩]
      (some (List.replicate 4000 'A')) =
      (("--- ".data) ++ List.replicate 4000 'A' ++ (" ---".data)) ++ ("\n\n".data) ++
        ("[PRICE INFO 1]: 1".data) := by
    rw [hrepl, c1_assemble_eq 'A' (List.replicate 3999 'A'), intercalate_pair]
  have hlen : (document_utils.assembleParts [⟨("1".data), []⟩]
      (some (List.replicate 4000 'A'))).length = 4027 := by
    rw [hr]
    simp only [List.length_append, List.length_replicate]
    rfl
  have hmain : (document_utils.format_retrieved_context [⟨("1".data), []⟩]
      (some (List.replicate 4000 'A'))).length = 4034 := by
    unfold document_utils.format_retrieved_context
    simp only [List.isEmpty_cons, Bool.false_eq_true, if_false]
    rw [if_pos (by rw [hlen]; norm_num)]
    rw [List.length_append, List.length_take, hlen]
    rfl
  exact ⟨hmain, by rw [hmain]; norm_num⟩

/-- C1 (amended): the context assembler's output never exceeds 4000
characters plus the 34-character truncation marker (4034 in total), and
whenever the output does exceed 4000 characters the explicit marker
`... [additional context truncated]` is a suffix of it (the hard truncation
is never silent). -/
theorem claim_c1_thm : ∀ (docs : List Document) (doc_type : Option Str),
    (document_utils.format_retrieved_context docs doc_type).length ≤
      4000 + document_utils.contextTruncMarker.length ∧
    ((document_utils.format_retrieved_context docs doc_type).length ≤ 4000 ∨
      document_utils.contextTruncMarker.IsSuffix
        (document_utils.format_retrieved_context docs doc_type)) := by
  intro docs doc_type
  unfold document_utils.format_retrieved_context
  by_cases hempty : docs.isEmpty
  · simp [hempty]
  · simp only [hempty, Bool.false_eq_true, if_false]
    generalize document_utils.assembleParts docs doc_type = r
    by_cases h4 : 4000 < r.length
    · simp only [h4, if_true]
      refine ⟨?_, Or.inr ⟨r.take 4000, rfl⟩⟩
      rw [List.length_append, List.length_take, Nat.min_eq_left (Nat.le_of_lt h4)]
    · simp only [h4, if_false]
      exact ⟨by omega, Or.inl (by omega)⟩

/-- C2 (counterexample): the query `"how much "` satisfies
`is_direct_price_query` (its first how-much detection pattern matches) but
`extract_treatment_from_query` returns null on it, so a classification can
have `is_direct_price_query = true` with a null `treatment_name`. -/
theorem claim_c2_counterexample :
    pattern_matching.is_direct_price_query ("how much ".data) = true ∧
    pattern_matching.extract_treatment_from_query ("how much ".data) = none := by
  exact ⟨by decide, by decide⟩

/-- C2 (amended): whenever `is_direct_price_query` holds via the
`"<name> BDT|Tk|Taka"` pattern (the BDT pattern matches with capture `t`),
the treatment extraction on the same query returns the non-null stripped
capture; the invariant fails only for queries accepted solely by the
how-much patterns. -/
theorem claim_c2_thm (q t : Str)
    (h : pattern_matching.bdt_query_match q = some t) :
    pattern_matching.is_direct_price_query q = true ∧
    pattern_matching.extract_treatment_from_query q = some (stripWs t) := by
  constructor
  · cases q with
    | nil =>
      have h0 : pattern_matching.bdt_query_match ([] : Str) = none := rfl
      rw [h0] at h
      exact Option.noConfusion h
    | cons c rest =>
      simp [pattern_matching.is_direct_price_query, h]
  · simp [pattern_matching.extract_treatment_from_query, h]

/-- C2 (witness): the BDT pattern matches `"x BDT"` with capture `"x"`, and
the theorem then yields a direct-price classification with non-null
treatment. -/
theorem claim_c2_witness :
    pattern_matching.bdt_query_match ("x BDT".data) = some ("x".data) ∧
    (pattern_matching.is_direct_price_query ("x BDT".data) = true ∧
      pattern_matching.extract_treatment_from_query ("x BDT".data) =
        some (stripWs ("x".data))) :=
  ⟨by decide, claim_c2_thm ("x BDT".data) ("x".data) (by decide)⟩

/-- C3 (code bug): on a single well-formed document with content `"cost 5"`,
text_processing.py's `extract_price_info` raises `ValueError` (it unpacks
each single-group `PRICE_PATTERN` match string into a pair), modelled here as
`Except.error`; the sibling extractor in document_utils.py returns the empty
mapping on the same input, which is the behavior the claim describes. -/
theorem claim_c3_thm :
    text_processing.extract_price_info [⟨("cost 5".data), []⟩] =
      Except.error ("ValueError".data) ∧
    document_utils.extract_price_info [⟨("cost 5".data), []⟩] = [] :=
  ⟨rfl, rfl⟩

/-- C4 (counterexample): `ensure_sentence_limit "A. B. C. D." 2` returns
`"A.. B."`, not the claimed `"A. B."`: the split pieces keep their
terminators, so rejoining with `". "` doubles the period. -/
theorem claim_c4_counterexample :
    text_processing.ensure_sentence_limit ("A. B. C. D.".data) 2 = ("A.. B.".data) ∧
    ("A.. B.".data) ≠ ("A. B.".data) := by
  exact ⟨rfl, by decide⟩

/-- C4 (amended): on `"A. B. C. D."` with limit 2 the result is `"A.. B."`
(kept segments retain their terminators and are rejoined with `". "`), and in
general whenever the input has more sentences than the limit, the result ends
in one of `.`, `!`, `?`. -/
theorem claim_c4_thm :
    text_processing.ensure_sentence_limit ("A. B. C. D.".data) 2 = ("A.. B.".data) ∧
    ∀ (text : Str) (max_sentences : Nat),
      max_sentences < (text_processing.sentenceSplit (stripWs text)).length →
      text_processing.endsWithTerm
        (text_processing.ensure_sentence_limit text max_sentences) = true := by
  refine ⟨rfl, fun text ms h => ?_⟩
  unfold text_processing.ensure_sentence_limit
  rw [if_neg (by omega)]
  by_cases he : text_processing.endsWithTerm
      (List.intercalate (". ".data)
        ((text_processing.sentenceSplit (stripWs text)).take ms)) = true
  · simp [he]
  · simp only [Bool.not_eq_true] at he
    simp only [he, Bool.not_false, if_true]
    unfold text_processing.endsWithTerm
    rw [List.reverse_append]
    rfl

/-- C4 (witness): a concrete over-limit input for the general part of the
theorem. -/
theorem claim_c4_witness :
    text_processing.endsWithTerm
      (text_processing.ensure_sentence_limit ("X! Y! Z!".data) 1) = true :=
  claim_c4_thm.2 ("X! Y! Z!".data) 1 (by decide)

/-- The metadata mapping of the C5 documents: `has_price_info = true` and a
`price_data` mapping `pd`. -/
def c5Meta (pd : List (Str × Str)) : List (Str × MetaVal) :=
  [(("has_price_info".data), MetaVal.vb true), (("price_data".data), MetaVal.vd pd)]

/-- C5: for every document whose metadata has `has_price_info = true` and a
`price_data` mapping, the exported extractor (document_utils.py) merges
exactly that mapping's entries and never scans the content (the result is
independent of `content`); in particular with `price_data` =
`x-ray ↦ 500` the result is exactly that mapping, regardless of content. -/
theorem claim_c5_thm :
    (∀ (content : Str) (pd : List (Str × Str)),
      document_utils.extract_price_info [⟨content, c5Meta pd⟩] = dictUpdate [] pd) ∧
    (∀ content : Str,
      document_utils.extract_price_info
        [⟨content, c5Meta [(("x-ray".data), ("500".data))]⟩] =
        [(("x-ray".data), ("500".data))]) :=
  ⟨fun _ _ => rfl, fun _ => rfl⟩

/-- C6: the exported matcher (pattern_matching.py) returns true exactly when
the spec's rule holds — normalized equality, substring containment either
way, or non-empty word sets with overlap at least 0.7 of the smaller set —
and the claim's concrete examples evaluate as stated. -/
theorem claim_c6_thm :
    (∀ a b : Str, pattern_matching.treatments_match a b = spec_match_rule a b) ∧
    pattern_matching.treatments_match ("dental cleaning".data) ("cleaning".data) = true ∧
    pattern_matching.treatments_match ("root canal".data) ("teeth whitening".data) = false := by
  refine ⟨fun a b => ?_, by decide, by decide⟩
  unfold pattern_matching.treatments_match spec_match_rule
  generalize pattern_matching.normalize_treatment_name a = na
  generalize pattern_matching.normalize_treatment_name b = nb
  by_cases h1 : na = nb
  · simp [h1]
  · simp only [if_neg h1, decide_eq_false h1, Bool.false_or]
    cases hx : inStr na nb with
    | true => simp [hx]
    | false =>
      cases hy : inStr nb na with
      | true => simp [hx, hy]
      | false =>
        simp only [hx, hy, Bool.or_self, Bool.false_or, Bool.false_eq_true, if_false]
        cases hwa : (splitWs na).dedup.isEmpty with
        | true => simp [hwa]
        | false =>
          cases hwb : (splitWs nb).dedup.isEmpty with
          | true => simp [hwa, hwb]
          | false =>
            have ha0 : (splitWs na).dedup ≠ [] := by
              intro hnil
              rw [hnil] at hwa
              simp at hwa
            have hb0 : (splitWs nb).dedup ≠ [] := by
              intro hnil
              rw [hnil] at hwb
              simp at hwb
            have hmin : ¬ (min (splitWs na).dedup.length (splitWs nb).dedup.length = 0) := by
              rw [Nat.min_eq_zero_iff]
              rintro (h0 | h0)
              · exact ha0 (List.length_eq_zero.mp h0)
              · exact hb0 (List.length_eq_zero.mp h0)
            simp only [hwa, hwb, if_neg hmin, Bool.false_eq_true, if_false,
              Bool.not_false, Bool.true_and]
            simp

/-- C7: classifying `"X-Ray BDT"` with the exported classifier
(pattern_matching.py) yields `is_price_query = true` (keyword `bdt`),
`is_direct_price_query = true` (the BDT pattern), and treatment name
`"X-Ray"` (the captured group, trimmed). -/
theorem claim_c7_thm :
    pattern_matching.is_price_query ("X-Ray BDT".data) = true ∧
    pattern_matching.is_direct_price_query ("X-Ray BDT".data) = true ∧
    pattern_matching.extract_treatment_from_query ("X-Ray BDT".data) =
      some ("X-Ray".data) := by
  exact ⟨by decide, by decide, by decide⟩

/-- C8 (code bug): the response `"The X-Ray costs 500.00 BDT."` contains the
canonical price `"500.00 BDT"`, but `format_price_response` rewrites it to
`"The X-Ray costs 500. 0 0.00 BDT."` (the blanket `" BDT" -> ".00 BDT"`
replacement plus the space-insertion pattern, which also matches inside digit
runs, corrupt the canonical form), so the canonical substring does not
survive the pass. -/
theorem claim_c8_thm :
    inStr ("500.00 BDT".data) ("The X-Ray costs 500.00 BDT.".data) = true ∧
    response_formatter.format_price_response ("The X-Ray costs 500.00 BDT.".data)
        [(("x-ray".data), ("500".data))] =
      ("The X-Ray costs 500. 0 0.00 BDT.".data) ∧
    inStr ("500.00 BDT".data)
      (response_formatter.format_price_response ("The X-Ray costs 500.00 BDT.".data)
        [(("x-ray".data), ("500".data))]) = false := by
  exact ⟨by decide, rfl, by decide⟩

/-- The loop of `filter_documents_by_score` computes the order-preserving
strict-threshold filter. -/
theorem fdsLoop_eq_filter (dws : List (Document × ℚ)) (threshold : ℚ) :
    document_utils.fdsLoop dws threshold =
      (dws.filter (fun p => decide (p.2 < threshold))).map Prod.fst := by
  induction dws with
  | nil => rfl
  | cons p rest ih =>
    obtain ⟨doc, score⟩ := p
    unfold document_utils.fdsLoop
    by_cases h : score < threshold
    · simp [h, List.filter_cons, ih]
    · simp [h, List.filter_cons, ih]

/-- C9: with `is_price_query = true` the score filter returns every document
unchanged and in order, ignoring the threshold; with `is_price_query = false`
it returns exactly the documents with score strictly below the threshold, in
order. -/
theorem claim_c9_thm :
    ∀ (dws : List (Document × ℚ)) (threshold : ℚ),
      document_utils.filter_documents_by_score dws threshold true =
        dws.map Prod.fst ∧
      document_utils.filter_documents_by_score dws threshold false =
        (dws.filter (fun p => decide (p.2 < threshold))).map Prod.fst := by
  intro dws threshold
  exact ⟨rfl, fdsLoop_eq_filter dws threshold⟩

/-- C10: for every outcome of the random greeting choice, a non-empty input
yields one of the four fixed greetings followed by a space and the (possibly
sentence-limited) input text — the greeting is prepended unconditionally —
and an empty input yields the fixed apology string. -/
theorem claim_c10_thm :
    ∀ (choice : Fin 4) (text : Str) (max_sentences : Option Nat),
      (text = [] → response_formatter.format_response choice text max_sentences =
        response_formatter.apologyText) ∧
      (text ≠ [] → ∃ g, g ∈ response_formatter.greetingVariations ∧
        ∃ t', (t' = text ∨ ∃ m, max_sentences = some m ∧
            t' = response_formatter.periodLimit text m) ∧
          response_formatter.format_response choice text max_sentences =
            g ++ [ ' ' ] ++ t') := by
  intro choice text ms
  constructor
  · intro h
    subst h
    rfl
  · intro h
    refine ⟨response_formatter.greetingVariations.getD choice.val [], ?_, ?_⟩
    · fin_cases choice
      · exact List.mem_cons_self _ _
      · exact List.mem_cons_of_mem _ (List.mem_cons_self _ _)
      · exact List.mem_cons_of_mem _ (List.mem_cons_of_mem _ (List.mem_cons_self _ _))
      · exact List.mem_cons_of_mem _ (List.mem_cons_of_mem _
          (List.mem_cons_of_mem _ (List.mem_cons_self _ _)))
    · cases text with
      | nil => exact absurd rfl h
      | cons x xs =>
        cases ms with
        | none => exact ⟨x :: xs, Or.inl rfl, rfl⟩
        | some m =>
          by_cases hm : m = 0
          · subst hm
            refine ⟨x :: xs, Or.inl rfl, ?_⟩
            simp [response_formatter.format_response]
          · refine ⟨response_formatter.periodLimit (x :: xs) m,
              Or.inr ⟨m, rfl, rfl⟩, ?_⟩
            simp [response_formatter.format_response, hm]

/-- C10 (witness): both branches instantiated — the empty input yields the
apology, and the input `"Hi."` with no sentence limit yields a greeting, a
space and the unchanged text. -/
theorem claim_c10_witness :
    response_formatter.format_response 0 ([] : Str) none =
      response_formatter.apologyText ∧
    (∃ g, g ∈ response_formatter.greetingVariations ∧
      ∃ t', (t' = ("Hi.".data) ∨ ∃ m, (none : Option Nat) = some m ∧
          t' = response_formatter.periodLimit ("Hi.".data) m) ∧
        response_formatter.format_response 0 ("Hi.".data) none =
          g ++ [ ' ' ] ++ t') :=
  ⟨(claim_c10_thm 0 ([] : Str) none).1 rfl,
    (claim_c10_thm 0 ("Hi.".data) none).2 (by decide)⟩
